import Mathlib

/-! Shallow embedding of the publication-check core of release-plz
(crates/release_plz_core/src/cargo.rs), together with proofs about it.

Durations are modelled in whole seconds as naturals. Network and index
behaviour is supplied through explicit environments, so every function of
the source becomes a pure Lean function of those environments:

* a sparse-index environment maps the HTTP version of an attempt to the
  outcome of request_for_sparse_metadata at that version;
* a git environment records what index.crate_ returns before an update
  and what it returns (or fails with) after index.update();
* a polling environment maps the attempt number to the wall-clock
  duration of that publication check and the value it completes with.
-/

namespace ReleasePlz

/-- A registry record for one package: the published version strings, as
returned by crates_index Crate::versions, each rendered by
Version::version. -/
structure Crate where
  versions : List String
deriving DecidableEq

/-- One entry of the causal chain of a reqwest error, as walked by
Error::source() in is_h2_go_away: either an error that downcasts to
h2::Error (with its is_go_away flag) or any other cause. -/
inductive ErrorSource where
  | h2 (goAway : Bool)
  | other
deriving DecidableEq

/-- Model of a reqwest::Error: its is_connect classification and its
causal chain of sources. -/
structure ReqwestErrorModel where
  isConnect : Bool
  sources : List ErrorSource
deriving DecidableEq

/-- Model of an anyhow::Error as it appears in cargo.rs: the tokio
Elapsed timeout error, a plain message, a context layer wrapping an
inner error (anyhow Context), the bail! raised by wait_until_published
(which formats the timeout value and the package name), or an error
whose root is a reqwest::Error. -/
inductive CargoError where
  | elapsed
  | msg (s : String)
  | context (s : String) (e : CargoError)
  | timeoutBail (t : Nat) (pkg : String)
  | reqwest (e : ReqwestErrorModel)
deriving DecidableEq

/-- Model of anyhow downcast_ref to reqwest::Error: looks through
context layers for an underlying reqwest error. -/
def CargoError.downcastReqwest : CargoError → Option ReqwestErrorModel
  | .reqwest e => some e
  | .context _ e => e.downcastReqwest
  | _ => none

/-- Whether one entry of the causal chain downcasts to an h2::Error
whose is_go_away() holds (body of the loop in is_h2_go_away,
src lines 175-183). -/
def isGoAwaySource : ErrorSource → Bool
  | .h2 g => g
  | .other => false

/-- Embeds is_h2_go_away (src lines 172-186): walk the full causal
chain of the error and report whether any cause is an h2 GOAWAY. -/
def is_h2_go_away (e : ReqwestErrorModel) : Bool :=
  e.sources.any isGoAwaySource

/-- The two HTTP versions used by request_for_sparse_metadata. -/
inductive HttpVersion where
  | http2
  | http11
deriving DecidableEq

/-- The reqwest client configuration built in request_for_sparse_metadata
(src lines 210-214): gzip is always enabled, and http2_prior_knowledge
only for the HTTP/2 attempt. -/
structure ClientConfig where
  gzip : Bool
  http2PriorKnowledge : Bool
deriving DecidableEq

/-- Embeds the client construction of request_for_sparse_metadata:
ClientBuilder::new().gzip(true), plus http2_prior_knowledge() exactly
when the requested version is HTTP/2. -/
def clientConfigFor (v : HttpVersion) : ClientConfig :=
  ⟨true, v == .http2⟩

/-- Outcome of the response-processing tail of fetch_sparse_metadata for
one successful request: the combined effect of res.bytes(), the response
rebuild, and index.parse_cache_response, which either fails or yields
the optional crate record (None when the registry does not know the
package). -/
structure ResponseModel where
  parsed : Except CargoError (Option Crate)

/-- Result of fetch_sparse_metadata, instrumented with the list of HTTP
versions actually requested, in order. -/
structure FetchResult where
  result : Except CargoError (Option Crate)
  requests : List HttpVersion

/-- Embeds fetch_sparse_metadata (src lines 128-169). The environment
maps the HTTP version of an attempt to the outcome of
request_for_sparse_metadata at that version. First attempt is HTTP/2;
if it fails and the error downcasts to a reqwest error that is a
connect error or carries an h2 GOAWAY in its chain, retry exactly once
with HTTP/1.1; any other failure propagates unchanged. The successful
response (from whichever attempt) is then parsed. -/
def fetch_sparse_metadata (env : HttpVersion → Except CargoError ResponseModel) : FetchResult :=
  match env .http2 with
  | .ok r => ⟨r.parsed, [.http2]⟩
  | .error e =>
    match e.downcastReqwest with
    | some re =>
      if re.isConnect || is_h2_go_away re then
        match env .http11 with
        | .ok r => ⟨r.parsed, [.http2, .http11]⟩
        | .error e2 => ⟨.error e2, [.http2, .http11]⟩
      else ⟨.error e, [.http2]⟩
    | none => ⟨.error e, [.http2]⟩

/-- Embeds is_version_present (src lines 124-126): exact string equality
of some published version against the queried version string. -/
def is_version_present (version : String) (crate_data : Crate) : Bool :=
  crate_data.versions.any (fun v => v == version)

/-- Embeds is_in_cache (src lines 115-122). -/
def is_in_cache (crate_data : Option Crate) (version : String) : Bool :=
  match crate_data with
  | some c => is_version_present version c
  | none => false

/-- Embeds is_in_cache_sparse (src lines 103-113): fetch the sparse
metadata (with protocol fallback), wrap a fetch failure in the
"failed fetching sparse metadata" context, and otherwise test the cache
for the version. The version argument is package.version.to_string(). -/
def is_in_cache_sparse (env : HttpVersion → Except CargoError ResponseModel)
    (version : String) : Except CargoError Bool :=
  match (fetch_sparse_metadata env).result with
  | .error e => .error (.context "failed fetching sparse metadata" e)
  | .ok crate_data => .ok (is_in_cache crate_data version)

/-- Environment of one is_published_git call for a fixed package:
what index.crate_(name) returns before index.update(), and the outcome
of the update, given as the post-update index.crate_(name) value or the
update failure. -/
structure GitEnv where
  localCrate : Option Crate
  updateResult : Except CargoError (Option Crate)

/-- Result of is_published_git, instrumented with the number of
index.update() operations (network refreshes) performed. -/
structure GitLookup where
  result : Except CargoError Bool
  refreshes : Nat

/-- Embeds is_in_cache_git (src lines 97-101) on the pre-update state of
the index. -/
def is_in_cache_git (env : GitEnv) (version : String) : Bool :=
  is_in_cache env.localCrate version

/-- Embeds is_published_git (src lines 84-95): check the local replica
first; only if absent run index.update() (wrapping a failure in the
"failed to update git index" context) and re-check the updated copy
exactly once. -/
def is_published_git (env : GitEnv) (version : String) : GitLookup :=
  if is_in_cache_git env version then ⟨.ok true, 0⟩
  else
    match env.updateResult with
    | .error e => ⟨.error (.context "failed to update git index" e), 1⟩
    | .ok post => ⟨.ok (is_in_cache post version), 1⟩

/-- Behaviour of one underlying index lookup as seen by is_published:
how long it would take to complete, and the value it completes with. -/
structure Attempt where
  duration : Nat
  result : Except CargoError Bool

/-- The context string built in is_published (src line 81). -/
def timeoutWhilePublishing (pkg : String) : String :=
  "timeout while publishing " ++ pkg

/-- Embeds is_published (src lines 68-82). tokio::time::timeout aborts
the lookup when it does not complete before the bound, and the question
mark on .await propagates that bare Elapsed error before with_context is
reached; with_context therefore wraps only the errors of lookups that
completed in time. -/
def is_published (timeout : Nat) (pkg : String) (a : Attempt) : Except CargoError Bool :=
  if timeout < a.duration then .error .elapsed
  else
    match a.result with
    | .ok b => .ok b
    | .error e => .error (.context (timeoutWhilePublishing pkg) e)

/-- Wall-clock time consumed by one is_published call: the full lookup
duration when it completes within the bound, otherwise the bound itself
(tokio cuts the wait off at the deadline). -/
def checkTime (timeout : Nat) (a : Attempt) : Nat :=
  min a.duration timeout

/-- Result of wait_until_published, instrumented with the finishing
wall-clock time (seconds since entry), the number of times the one-time
waiting notice was emitted, the number of publication checks performed,
the per-check timeout bound passed to each is_published call, and the
lengths of the sleeps performed. -/
structure PollResult where
  outcome : Except CargoError Unit
  endTime : Nat
  notices : Nat
  checksMade : Nat
  boundsUsed : List Nat
  sleepsUsed : List Nat

/-- Embeds the loop of wait_until_published (src lines 231-252), with
explicit fuel. Each iteration: run is_published with the (single)
timeout parameter, propagate its error, stop on true, bail with the
timeout error when the elapsed time strictly exceeds the timeout, emit
the one-time notice, sleep the hardcoded 2 seconds, repeat. -/
def wupLoop (t : Nat) (pkg : String) (env : Nat → Attempt) :
    Nat → Nat → Nat → Bool → Nat → List Nat → List Nat → Option PollResult
  | 0, _, _, _, _, _, _ => none
  | fuel + 1, i, elapsed, logged, notices, bounds, sleeps =>
    match is_published t pkg (env i) with
    | .error e =>
      some ⟨.error e, elapsed + checkTime t (env i), notices, i + 1, bounds ++ [t], sleeps⟩
    | .ok true =>
      some ⟨.ok (), elapsed + checkTime t (env i), notices, i + 1, bounds ++ [t], sleeps⟩
    | .ok false =>
      if t < elapsed + checkTime t (env i) then
        some ⟨.error (.timeoutBail t pkg), elapsed + checkTime t (env i), notices, i + 1,
          bounds ++ [t], sleeps⟩
      else
        wupLoop t pkg env fuel (i + 1) (elapsed + checkTime t (env i) + 2) true
          (if logged then notices else notices + 1) (bounds ++ [t]) (sleeps ++ [2])

/-- Fuel sufficient for wupLoop to reach its own timeout bail: every
continuing iteration advances elapsed time by at least the 2-second
sleep, so the loop continues at most t / 2 + 1 times. -/
def pollFuel (t : Nat) : Nat :=
  t / 2 + 2

/-- Embeds wait_until_published (src lines 221-255): run the polling
loop with the single caller-supplied timeout, starting at elapsed time
zero with the notice not yet logged. The none branch of the match is
dead (pollFuel is proven sufficient below). -/
def wait_until_published (t : Nat) (pkg : String) (env : Nat → Attempt) : PollResult :=
  match wupLoop t pkg env (pollFuel t) 0 0 false 0 [] [] with
  | some r => r
  | none => ⟨.ok (), 0, 0, 0, [], []⟩

/-! Case lemmas about is_published and checkTime. -/

theorem is_published_of_ok {t : Nat} {pkg : String} {a : Attempt} {b : Bool}
    (h : is_published t pkg a = .ok b) : a.duration ≤ t ∧ a.result = .ok b := by
  unfold is_published at h
  split at h
  · simp at h
  · rename_i hd
    refine ⟨Nat.le_of_not_lt hd, ?_⟩
    split at h
    · rename_i b2 hr
      injection h with h2
      rw [hr, h2]
    · simp at h

theorem is_published_elapsed {t : Nat} {pkg : String} {a : Attempt}
    (h : t < a.duration) : is_published t pkg a = .error .elapsed := by
  unfold is_published
  rw [if_pos h]

theorem is_published_inner_error {t : Nat} {pkg : String} {a : Attempt} {e : CargoError}
    (hd : a.duration ≤ t) (hr : a.result = .error e) :
    is_published t pkg a = .error (.context (timeoutWhilePublishing pkg) e) := by
  unfold is_published
  rw [if_neg (Nat.not_lt.mpr hd), hr]

theorem is_published_completes {t : Nat} {pkg : String} {a : Attempt} {b : Bool}
    (hd : a.duration ≤ t) (hr : a.result = .ok b) : is_published t pkg a = .ok b := by
  unfold is_published
  rw [if_neg (Nat.not_lt.mpr hd), hr]

theorem checkTime_le (t : Nat) (a : Attempt) : checkTime t a ≤ t :=
  Nat.min_le_right _ _

theorem checkTime_of_le {t : Nat} {a : Attempt} (h : a.duration ≤ t) :
    checkTime t a = a.duration :=
  Nat.min_eq_left h

/-! Invariant lemmas about the polling loop. -/

theorem wupLoop_notices (t : Nat) (pkg : String) (env : Nat → Attempt) :
    ∀ (fuel i elapsed : Nat) (logged : Bool) (notices : Nat) (bounds sleeps : List Nat)
      (r : PollResult),
      wupLoop t pkg env fuel i elapsed logged notices bounds sleeps = some r →
      r.notices ≤ notices + (if logged then 0 else 1) := by
  intro fuel
  induction fuel with
  | zero =>
    intro i elapsed logged notices bounds sleeps r h
    simp [wupLoop] at h
  | succ f ih =>
    intro i elapsed logged notices bounds sleeps r h
    simp only [wupLoop] at h
    split at h
    · simp only [Option.some.injEq] at h
      subst h
      cases logged <;> simp
    · simp only [Option.some.injEq] at h
      subst h
      cases logged <;> simp
    · split at h
      · simp only [Option.some.injEq] at h
        subst h
        cases logged <;> simp
      · have := ih _ _ _ _ _ _ _ h
        cases logged <;> simp at this ⊢ <;> omega

theorem wupLoop_bounds (t : Nat) (pkg : String) (env : Nat → Attempt) :
    ∀ (fuel i elapsed : Nat) (logged : Bool) (notices : Nat) (bounds sleeps : List Nat)
      (r : PollResult),
      wupLoop t pkg env fuel i elapsed logged notices bounds sleeps = some r →
      bounds.all (fun b => b == t) = true →
      sleeps.all (fun s => s == 2) = true →
      r.boundsUsed.all (fun b => b == t) = true ∧
        r.sleepsUsed.all (fun s => s == 2) = true := by
  intro fuel
  induction fuel with
  | zero =>
    intro i elapsed logged notices bounds sleeps r h
    simp [wupLoop] at h
  | succ f ih =>
    intro i elapsed logged notices bounds sleeps r h hb hs
    simp only [wupLoop] at h
    split at h
    · simp only [Option.some.injEq] at h
      subst h
      exact ⟨by simp [List.all_append, hb], hs⟩
    · simp only [Option.some.injEq] at h
      subst h
      exact ⟨by simp [List.all_append, hb], hs⟩
    · split at h
      · simp only [Option.some.injEq] at h
        subst h
        exact ⟨by simp [List.all_append, hb], hs⟩
      · exact ih _ _ _ _ _ _ _ h (by simp [List.all_append, hb])
          (by simp [List.all_append, hs])

theorem wupLoop_bail_time (t : Nat) (pkg : String) (env : Nat → Attempt) :
    ∀ (fuel i elapsed : Nat) (logged : Bool) (notices : Nat) (bounds sleeps : List Nat)
      (r : PollResult),
      wupLoop t pkg env fuel i elapsed logged notices bounds sleeps = some r →
      elapsed ≤ t + 2 →
      r.outcome = .error (.timeoutBail t pkg) →
      r.endTime ≤ 2 * t + 2 := by
  intro fuel
  induction fuel with
  | zero =>
    intro i elapsed logged notices bounds sleeps r h
    simp [wupLoop] at h
  | succ f ih =>
    intro i elapsed logged notices bounds sleeps r h he hout
    simp only [wupLoop] at h
    split at h
    · rename_i e hp
      simp only [Option.some.injEq] at h
      subst h
      injection hout with h2
      subst h2
      -- is_published never returns the bail constructor
      exfalso
      unfold is_published at hp
      split at hp
      · injection hp with hp2
        exact CargoError.noConfusion hp2
      · split at hp
        · simp at hp
        · injection hp with hp2
          exact CargoError.noConfusion hp2
    · simp only [Option.some.injEq] at h
      subst h
      exact Except.noConfusion hout
    · rename_i hp
      split at h
      · simp only [Option.some.injEq] at h
        subst h
        have hct : checkTime t (env i) ≤ t := checkTime_le t (env i)
        show elapsed + checkTime t (env i) ≤ 2 * t + 2
        omega
      · rename_i hlt
        have hct : checkTime t (env i) ≤ t := checkTime_le t (env i)
        exact ih _ _ _ _ _ _ _ h (by omega) hout

theorem wupLoop_isSome (t : Nat) (pkg : String) (env : Nat → Attempt) :
    ∀ (fuel i elapsed : Nat) (logged : Bool) (notices : Nat) (bounds sleeps : List Nat),
      t < elapsed + 2 * fuel →
      (wupLoop t pkg env (fuel + 1) i elapsed logged notices bounds sleeps).isSome = true := by
  intro fuel
  induction fuel with
  | zero =>
    intro i elapsed logged notices bounds sleeps h
    simp only [wupLoop]
    split
    · simp
    · simp
    · split
      · simp
      · rename_i hp hlt
        exfalso
        have hle : elapsed ≤ elapsed + checkTime t (env i) := Nat.le_add_right _ _
        omega
  | succ f ih =>
    intro i elapsed logged notices bounds sleeps h
    simp only [wupLoop]
    split
    · simp
    · simp
    · split
      · simp
      · rename_i hp hlt
        exact ih (i + 1) (elapsed + checkTime t (env i) + 2) true _ _ _ (by omega)

theorem wait_until_published_eq (t : Nat) (pkg : String) (env : Nat → Attempt) :
    wupLoop t pkg env (pollFuel t) 0 0 false 0 [] [] =
      some (wait_until_published t pkg env) := by
  have h2 : pollFuel t = (t / 2 + 1) + 1 := rfl
  have hs := wupLoop_isSome t pkg env (t / 2 + 1) 0 0 false 0 [] [] (by omega)
  unfold wait_until_published
  rw [h2]
  cases hw : wupLoop t pkg env (t / 2 + 1 + 1) 0 0 false 0 [] [] with
  | none =>
    rw [hw] at hs
    simp at hs
  | some r => simp

theorem wupLoop_continuation (t : Nat) (pkg : String) (env : Nat → Attempt) :
    ∀ (fuel i elapsed : Nat) (logged : Bool) (notices : Nat) (bounds sleeps : List Nat)
      (r : PollResult),
      wupLoop t pkg env fuel i elapsed logged notices bounds sleeps = some r →
      ∀ j, i ≤ j → j + 1 < r.checksMade →
        (env j).result = .ok false ∧ (env j).duration ≤ t := by
  intro fuel
  induction fuel with
  | zero =>
    intro i elapsed logged notices bounds sleeps r h
    simp [wupLoop] at h
  | succ f ih =>
    intro i elapsed logged notices bounds sleeps r h j hij hj
    simp only [wupLoop] at h
    split at h
    · simp only [Option.some.injEq] at h
      subst h
      have hj2 : j + 1 < i + 1 := hj
      omega
    · simp only [Option.some.injEq] at h
      subst h
      have hj2 : j + 1 < i + 1 := hj
      omega
    · rename_i hp
      split at h
      · simp only [Option.some.injEq] at h
        subst h
        have hj2 : j + 1 < i + 1 := hj
        omega
      · rcases Nat.eq_or_lt_of_le hij with rfl | hgt
        · exact ⟨(is_published_of_ok hp).2, (is_published_of_ok hp).1⟩
        · exact ih _ _ _ _ _ _ _ h j hgt hj

theorem wupLoop_last_check (t : Nat) (pkg : String) (env : Nat → Attempt) :
    ∀ (fuel i elapsed : Nat) (logged : Bool) (notices : Nat) (bounds sleeps : List Nat)
      (r : PollResult),
      wupLoop t pkg env fuel i elapsed logged notices bounds sleeps = some r →
      i + 1 ≤ r.checksMade
      ∧ (r.outcome = .ok () → (env (r.checksMade - 1)).result = .ok true)
      ∧ (∀ e, (env (r.checksMade - 1)).result = .error e →
          (env (r.checksMade - 1)).duration ≤ t →
          r.outcome = .error (.context (timeoutWhilePublishing pkg) e)) := by
  intro fuel
  induction fuel with
  | zero =>
    intro i elapsed logged notices bounds sleeps r h
    simp [wupLoop] at h
  | succ f ih =>
    intro i elapsed logged notices bounds sleeps r h
    simp only [wupLoop] at h
    split at h
    · rename_i e0 hp
      simp only [Option.some.injEq] at h
      subst h
      refine ⟨Nat.le_refl _, ?_, ?_⟩
      · intro hout
        exact Except.noConfusion hout
      · intro e he hd
        simp only [Nat.add_sub_cancel] at he hd
        have hthis : is_published t pkg (env i) =
            .error (.context (timeoutWhilePublishing pkg) e) :=
          is_published_inner_error hd he
        rw [hp] at hthis
        simpa using hthis
    · rename_i hp
      simp only [Option.some.injEq] at h
      subst h
      refine ⟨Nat.le_refl _, ?_, ?_⟩
      · intro _
        simp only [Nat.add_sub_cancel]
        exact (is_published_of_ok hp).2
      · intro e he hd
        simp only [Nat.add_sub_cancel] at he
        rw [(is_published_of_ok hp).2] at he
        exact Except.noConfusion he
    · rename_i hp
      split at h
      · simp only [Option.some.injEq] at h
        subst h
        refine ⟨Nat.le_refl _, ?_, ?_⟩
        · intro hout
          exact Except.noConfusion hout
        · intro e he hd
          simp only [Nat.add_sub_cancel] at he
          rw [(is_published_of_ok hp).2] at he
          exact Except.noConfusion he
      · have hrec := ih _ _ _ _ _ _ _ h
        exact ⟨Nat.le_of_succ_le hrec.1, hrec.2.1, hrec.2.2⟩

/-- One-step unfolding of the polling loop at positive fuel. -/
theorem wupLoop_succ_eq (t : Nat) (pkg : String) (env : Nat → Attempt)
    (fuel i elapsed : Nat) (logged : Bool) (notices : Nat) (bounds sleeps : List Nat) :
    wupLoop t pkg env (fuel + 1) i elapsed logged notices bounds sleeps =
      match is_published t pkg (env i) with
      | .error e =>
        some ⟨.error e, elapsed + checkTime t (env i), notices, i + 1, bounds ++ [t], sleeps⟩
      | .ok true =>
        some ⟨.ok (), elapsed + checkTime t (env i), notices, i + 1, bounds ++ [t], sleeps⟩
      | .ok false =>
        if t < elapsed + checkTime t (env i) then
          some ⟨.error (.timeoutBail t pkg), elapsed + checkTime t (env i), notices, i + 1,
            bounds ++ [t], sleeps⟩
        else
          wupLoop t pkg env fuel (i + 1) (elapsed + checkTime t (env i) + 2) true
            (if logged then notices else notices + 1) (bounds ++ [t]) (sleeps ++ [2]) := rfl

theorem wupLoop_step_true {t : Nat} {pkg : String} {env : Nat → Attempt}
    {fuel i elapsed : Nat} {logged : Bool} {notices : Nat} {bounds sleeps : List Nat}
    (hp : is_published t pkg (env i) = .ok true) :
    wupLoop t pkg env (fuel + 1) i elapsed logged notices bounds sleeps =
      some ⟨.ok (), elapsed + checkTime t (env i), notices, i + 1, bounds ++ [t], sleeps⟩ := by
  rw [wupLoop_succ_eq, hp]

theorem wupLoop_step_false {t : Nat} {pkg : String} {env : Nat → Attempt}
    {fuel i elapsed : Nat} {logged : Bool} {notices : Nat} {bounds sleeps : List Nat}
    (hp : is_published t pkg (env i) = .ok false)
    (hnb : ¬ t < elapsed + checkTime t (env i)) :
    wupLoop t pkg env (fuel + 1) i elapsed logged notices bounds sleeps =
      wupLoop t pkg env fuel (i + 1) (elapsed + checkTime t (env i) + 2) true
        (if logged then notices else notices + 1) (bounds ++ [t]) (sleeps ++ [2]) := by
  rw [wupLoop_succ_eq, hp]
  exact if_neg hnb

/-- The terminal check determines an error outcome: whenever the loop
returns and the publication check at its last index produced an error —
whether the bare Elapsed of a check that exceeded the bound or the
context-wrapped error of a lookup that completed in time — that very
error is the outcome of the loop. -/
theorem wupLoop_last_error (t : Nat) (pkg : String) (env : Nat → Attempt) :
    ∀ (fuel i elapsed : Nat) (logged : Bool) (notices : Nat) (bounds sleeps : List Nat)
      (r : PollResult),
      wupLoop t pkg env fuel i elapsed logged notices bounds sleeps = some r →
      ∀ e, is_published t pkg (env (r.checksMade - 1)) = .error e →
        r.outcome = .error e := by
  intro fuel
  induction fuel with
  | zero =>
    intro i elapsed logged notices bounds sleeps r h
    simp [wupLoop] at h
  | succ f ih =>
    intro i elapsed logged notices bounds sleeps r h
    simp only [wupLoop] at h
    split at h
    · rename_i e0 hp
      simp only [Option.some.injEq] at h
      subst h
      intro e he
      simp only [Nat.add_sub_cancel] at he
      rw [hp] at he
      injection he with he2
      show Except.error e0 = Except.error e
      rw [he2]
    · rename_i hp
      simp only [Option.some.injEq] at h
      subst h
      intro e he
      simp only [Nat.add_sub_cancel] at he
      rw [hp] at he
      exact Except.noConfusion he
    · rename_i hp
      split at h
      · simp only [Option.some.injEq] at h
        subst h
        intro e he
        simp only [Nat.add_sub_cancel] at he
        rw [hp] at he
        exact Except.noConfusion he
      · exact ih _ _ _ _ _ _ _ h

/-! Concrete environments used by witnesses and counterexamples. -/

/-- Every publication check completes instantly and reports absent. -/
def envAllFalse : Nat → Attempt := fun _ => ⟨0, .ok false⟩

/-- The HTTP/2 attempt fails with a connect error wrapped in the
request_for_sparse_metadata context; the HTTP/1.1 attempt succeeds with
a record listing version 0.9.0. -/
def envConnectFallback : HttpVersion → Except CargoError ResponseModel := fun v =>
  match v with
  | .http2 => .error (.context "request_for_sparse_metadata" (.reqwest ⟨true, []⟩))
  | .http11 => .ok ⟨.ok (some ⟨["0.9.0"]⟩)⟩

/-- The sparse fetch succeeds and the registry does not know the package. -/
def envUnknownPackage : HttpVersion → Except CargoError ResponseModel :=
  fun _ => .ok ⟨.ok none⟩

/-- First check reports absent, second fails with an IO error. -/
def envSecondCheckErr : Nat → Attempt := fun i =>
  if i == 0 then ⟨0, .ok false⟩ else ⟨0, .error (.msg "connection refused")⟩

/-- First check reports absent, second exceeds the per-check bound. -/
def envSecondCheckSlow : Nat → Attempt := fun i =>
  if i == 0 then ⟨0, .ok false⟩ else ⟨20, .ok false⟩

/-- The version is present from the first check on. -/
def envPresent : Nat → Attempt := fun _ => ⟨0, .ok true⟩

/-- Version absent from the local replica, present after the refresh. -/
def gitEnvRefreshFinds : GitEnv := ⟨none, .ok (some ⟨["2.1.0"]⟩)⟩

/-! Claim theorems. -/

/-- Claim C1: for every sparse-index metadata fetch, if the first attempt
(HTTP/2 with prior knowledge) fails with a connection-level error or an
HTTP/2 GOAWAY found anywhere in the causal chain of the error, exactly
one retry is made over HTTP/1.1 without prior knowledge and the outcome
of that second attempt is final; any other failure class propagates
without a retry, and a successful first attempt performs one request. -/
theorem c1_h2_fallback (env : HttpVersion → Except CargoError ResponseModel)
    (e : CargoError) (re : ReqwestErrorModel) :
    (env .http2 = .error e → e.downcastReqwest = some re →
      (re.isConnect || is_h2_go_away re) = true →
      (fetch_sparse_metadata env).requests = [.http2, .http11]
      ∧ (clientConfigFor .http11).http2PriorKnowledge = false
      ∧ (clientConfigFor .http2).http2PriorKnowledge = true
      ∧ (∀ r2, env .http11 = .ok r2 → (fetch_sparse_metadata env).result = r2.parsed)
      ∧ (∀ e2, env .http11 = .error e2 → (fetch_sparse_metadata env).result = .error e2))
    ∧ (env .http2 = .error e → e.downcastReqwest = some re →
      (re.isConnect || is_h2_go_away re) = false →
      fetch_sparse_metadata env = ⟨.error e, [.http2]⟩)
    ∧ (env .http2 = .error e → e.downcastReqwest = none →
      fetch_sparse_metadata env = ⟨.error e, [.http2]⟩)
    ∧ (∀ r1, env .http2 = .ok r1 → fetch_sparse_metadata env = ⟨r1.parsed, [.http2]⟩)
    ∧ (is_h2_go_away re = true ↔ ErrorSource.h2 true ∈ re.sources) := by
  refine ⟨?_, ?_, ?_, ?_, ?_⟩
  · intro h1 h2 h3
    refine ⟨?_, rfl, rfl, ?_, ?_⟩
    · cases hv : env .http11 with
      | ok r2 => simp [fetch_sparse_metadata, h1, h2, h3, hv]
      | error e2 => simp [fetch_sparse_metadata, h1, h2, h3, hv]
    · intro r2 hv
      simp [fetch_sparse_metadata, h1, h2, h3, hv]
    · intro e2 hv
      simp [fetch_sparse_metadata, h1, h2, h3, hv]
  · intro h1 h2 h3
    simp [fetch_sparse_metadata, h1, h2, h3]
  · intro h1 h2
    simp [fetch_sparse_metadata, h1, h2]
  · intro r1 h1
    simp [fetch_sparse_metadata, h1]
  · unfold is_h2_go_away
    rw [List.any_eq_true]
    constructor
    · rintro ⟨s, hmem, hg⟩
      cases s with
      | h2 g =>
        cases g with
        | true => exact hmem
        | false => simp [isGoAwaySource] at hg
      | other => simp [isGoAwaySource] at hg
    · intro hmem
      exact ⟨.h2 true, hmem, rfl⟩

/-- Witness for C1 at a concrete environment: a connect failure of the
HTTP/2 attempt is retried once over HTTP/1.1 and the parsed record of
the second attempt becomes the result. -/
theorem c1_h2_fallback_witness :
    (fetch_sparse_metadata envConnectFallback).requests = [HttpVersion.http2, HttpVersion.http11]
    ∧ (fetch_sparse_metadata envConnectFallback).result = .ok (some ⟨["0.9.0"]⟩) := by
  have h := (c1_h2_fallback envConnectFallback
      (.context "request_for_sparse_metadata" (.reqwest ⟨true, []⟩)) ⟨true, []⟩).1 rfl rfl rfl
  exact ⟨h.1, h.2.2.2.1 ⟨.ok (some ⟨["0.9.0"]⟩)⟩ rfl⟩

/-- Claim C2 (code bug): when the underlying lookup exceeds the
per-check bound, is_published fails with the bare tokio Elapsed error.
That error is one and the same value for every package and every bound,
so it carries neither the package identity nor the configured bound; the
name-bearing "timeout while publishing" context is attached instead to
the errors of lookups that completed within the bound. -/
theorem c2_timeout_error_lacks_identity :
    is_published 1 "demo-crate" ⟨5, .ok true⟩ = .error .elapsed
    ∧ is_published 1 "demo-crate" ⟨5, .ok true⟩ =
        is_published 99 "other-crate" ⟨200, .ok true⟩
    ∧ is_published 10 "demo-crate" ⟨1, .error (.msg "connection refused")⟩ =
        .error (.context (timeoutWhilePublishing "demo-crate") (.msg "connection refused")) :=
  ⟨rfl, rfl, rfl⟩

/-- Counterexample to C3: wait_until_published consumes a single
duration parameter, so in a concrete run with total timeout 7 every one
of the five publication checks is bounded by that same 7; there is no
separately supplied per-lookup timeout. -/
theorem c3_counterexample :
    (wait_until_published 7 "demo-crate" envAllFalse).boundsUsed = [7, 7, 7, 7, 7]
    ∧ (wait_until_published 7 "demo-crate" envAllFalse).outcome =
        .error (.timeoutBail 7 "demo-crate") :=
  ⟨rfl, rfl⟩

/-- Claim C3 as amended: the publication-check core consumes one
caller-supplied duration which serves both as the per-lookup bound
passed to every is_published call and as the total wait bound; only the
2-second inter-attempt pause is hardcoded. -/
theorem c3_amended_single_duration (t : Nat) (pkg : String) (env : Nat → Attempt) :
    (wait_until_published t pkg env).boundsUsed.all (fun b => b == t) = true
    ∧ (wait_until_published t pkg env).sleepsUsed.all (fun s => s == 2) = true :=
  wupLoop_bounds t pkg env _ _ _ _ _ _ _ _ (wait_until_published_eq t pkg env) rfl rfl

/-- Counterexample to C4: with total timeout 1 and instantaneous checks
that always report absent, the loop fails with the timeout error only at
elapsed time 2 (after the hardcoded 2-second sleep), which is later than
totalTimeout plus one in-flight check duration (1 + 0). -/
theorem c4_counterexample :
    (wait_until_published 1 "demo-crate" envAllFalse).outcome =
        .error (.timeoutBail 1 "demo-crate")
    ∧ (wait_until_published 1 "demo-crate" envAllFalse).endTime = 2
    ∧ (envAllFalse 0).duration = 0
    ∧ (envAllFalse 1).duration = 0
    ∧ (wait_until_published 1 "demo-crate" envAllFalse).checksMade = 2
    ∧ ¬ (wait_until_published 1 "demo-crate" envAllFalse).endTime ≤ 1 + 0 :=
  ⟨rfl, rfl, rfl, rfl, rfl, by decide⟩

/-- Claim C4 as amended: wait_until_published terminates in finite time
(the fuel pollFuel is always sufficient); when it fails with the
timeout error the failure occurs no later than totalTimeout plus one
sleep interval plus one in-flight check duration (each check duration is
itself bounded by the timeout, giving the bound 2 * t + 2); and when it
succeeds the final check reported the version present. -/
theorem c4_amended_termination (t : Nat) (pkg : String) (env : Nat → Attempt) :
    wupLoop t pkg env (pollFuel t) 0 0 false 0 [] [] =
        some (wait_until_published t pkg env)
    ∧ ((wait_until_published t pkg env).outcome = .error (.timeoutBail t pkg) →
        (wait_until_published t pkg env).endTime ≤ 2 * t + 2)
    ∧ ((wait_until_published t pkg env).outcome = .ok () →
        (env ((wait_until_published t pkg env).checksMade - 1)).result = .ok true) := by
  have h := wait_until_published_eq t pkg env
  refine ⟨h, ?_, ?_⟩
  · exact fun hout => wupLoop_bail_time t pkg env _ _ _ _ _ _ _ _ h (by omega) hout
  · exact fun hout => (wupLoop_last_check t pkg env _ _ _ _ _ _ _ _ h).2.1 hout

/-- Witness for the amended C4: at timeout 1 with always-absent checks
the failing run ends by 2 * 1 + 2 seconds. -/
theorem c4_amended_termination_witness :
    (wait_until_published 1 "demo-crate" envAllFalse).endTime ≤ 2 * 1 + 2 :=
  (c4_amended_termination 1 "demo-crate" envAllFalse).2.1 rfl

/-- Claim C5: the Git-index lookup checks the local replica first with
no refresh; only if the version is absent locally does it perform
exactly one index refresh followed by one re-check of the updated copy;
it returns true exactly when the version is found before or after the
refresh, and fails (with the update context) when the refresh fails. -/
theorem c5_git_lookup (env : GitEnv) (version : String) :
    (is_in_cache_git env version = true → is_published_git env version = ⟨.ok true, 0⟩)
    ∧ (is_in_cache_git env version = false →
        (is_published_git env version).refreshes = 1
        ∧ (∀ post, env.updateResult = .ok post →
            (is_published_git env version).result = .ok (is_in_cache post version))
        ∧ (∀ e, env.updateResult = .error e →
            (is_published_git env version).result =
              .error (.context "failed to update git index" e)))
    ∧ ((is_published_git env version).result = .ok true ↔
        (is_in_cache_git env version = true
         ∨ ∃ post, env.updateResult = .ok post ∧ is_in_cache post version = true)) := by
  refine ⟨?_, ?_, ?_⟩
  · intro hc
    simp [is_published_git, hc]
  · intro hc
    cases hu : env.updateResult with
    | ok post =>
      refine ⟨by simp [is_published_git, hc, hu], ?_, ?_⟩
      · intro post2 hp2
        injection hp2 with hp3
        subst hp3
        simp [is_published_git, hc, hu]
      · intro e he
        exact Except.noConfusion he
    | error e =>
      refine ⟨by simp [is_published_git, hc, hu], ?_, ?_⟩
      · intro post hp
        exact Except.noConfusion hp
      · intro e2 he2
        injection he2 with he3
        subst he3
        simp [is_published_git, hc, hu]
  · cases hc : is_in_cache_git env version with
    | true => simp [is_published_git, hc]
    | false =>
      cases hu : env.updateResult with
      | ok post => simp [is_published_git, hc, hu]
      | error e => simp [is_published_git, hc, hu]

/-- Witness for C5: a version absent locally but present after the
refresh is reported published. -/
theorem c5_git_lookup_witness :
    (is_published_git gitEnvRefreshFinds "2.1.0").result = .ok true :=
  (c5_git_lookup gitEnvRefreshFinds "2.1.0").2.2.mpr
    (Or.inr ⟨some ⟨["2.1.0"]⟩, rfl, by decide⟩)

/-- Claim C6: version membership is exact string equality against the
canonical version string: a record is matched only when some published
version string equals the query exactly, so a record containing 1.0.0
satisfies neither a lookup for 1.0.0-rc.1 nor one for v1.0.0. -/
theorem c6_exact_version_match :
    (∀ (c : Crate) (v : String), is_version_present v c = true ↔ v ∈ c.versions)
    ∧ is_version_present "1.0.0-rc.1" ⟨["1.0.0"]⟩ = false
    ∧ is_version_present "v1.0.0" ⟨["1.0.0"]⟩ = false
    ∧ (∀ (c : Crate) (v : String), is_in_cache (some c) v = is_version_present v c)
    ∧ (∀ (v : String), is_in_cache none v = false) := by
  refine ⟨?_, by decide, by decide, fun c v => rfl, fun v => rfl⟩
  intro c v
  unfold is_version_present
  rw [List.any_eq_true]
  simp

/-- Claim C7: for every sparse-index lookup whose (possibly retried)
fetch succeeds with no record — the package is entirely unknown to the
registry — the lookup reports a valid absent result (Ok false), never an
error. -/
theorem c7_unknown_package_absent (env : HttpVersion → Except CargoError ResponseModel)
    (version : String)
    (h : (fetch_sparse_metadata env).result = .ok none) :
    is_in_cache_sparse env version = .ok false := by
  unfold is_in_cache_sparse
  rw [h]
  rfl

/-- Witness for C7: a successful fetch of an unknown package yields
Ok false. -/
theorem c7_unknown_package_absent_witness :
    is_in_cache_sparse envUnknownPackage "1.0.0" = .ok false :=
  c7_unknown_package_absent envUnknownPackage "1.0.0" rfl

/-- Claim C8: in wait_until_published, any error produced by a
publication check — the bare Elapsed timeout error of a check that
exceeded the per-check bound just as much as the context-wrapped IO or
parse error of a lookup that completed in time — propagates immediately
as the outcome of the loop, and that check is the last one made; a poll
iteration is followed by another one only after an explicit Ok false
result, never after an error. -/
theorem c8_error_aborts_loop (t : Nat) (pkg : String) (env : Nat → Attempt)
    (j : Nat) (e : CargoError)
    (he : is_published t pkg (env j) = .error e)
    (hj : j < (wait_until_published t pkg env).checksMade) :
    (wait_until_published t pkg env).outcome = .error e
    ∧ (wait_until_published t pkg env).checksMade = j + 1 := by
  have hloop := wait_until_published_eq t pkg env
  have hcm : (wait_until_published t pkg env).checksMade = j + 1 := by
    by_cases hlt : j + 1 < (wait_until_published t pkg env).checksMade
    · have hcont :=
        wupLoop_continuation t pkg env _ _ _ _ _ _ _ _ hloop j (Nat.zero_le j) hlt
      have hfalse : is_published t pkg (env j) = .ok false :=
        is_published_completes hcont.2 hcont.1
      rw [he] at hfalse
      exact Except.noConfusion hfalse
    · omega
  refine ⟨?_, hcm⟩
  apply wupLoop_last_error t pkg env _ _ _ _ _ _ _ _ hloop e
  rw [hcm]
  simpa using he

/-- Witness for C8 in both error classes: a second check that exceeds
the per-check bound aborts the loop with the bare Elapsed error, and a
second check whose lookup fails in time aborts it with the
context-wrapped IO error; in both runs that check is the last one. -/
theorem c8_error_aborts_loop_witness :
    ((wait_until_published 10 "demo-crate" envSecondCheckSlow).outcome = .error .elapsed
      ∧ (wait_until_published 10 "demo-crate" envSecondCheckSlow).checksMade = 1 + 1)
    ∧ ((wait_until_published 10 "demo-crate" envSecondCheckErr).outcome =
          .error (.context (timeoutWhilePublishing "demo-crate") (.msg "connection refused"))
      ∧ (wait_until_published 10 "demo-crate" envSecondCheckErr).checksMade = 1 + 1) :=
  ⟨c8_error_aborts_loop 10 "demo-crate" envSecondCheckSlow 1 .elapsed rfl (by decide),
   c8_error_aborts_loop 10 "demo-crate" envSecondCheckErr 1
     (.context (timeoutWhilePublishing "demo-crate") (.msg "connection refused"))
     rfl (by decide)⟩

/-- Claim C9: the informational waiting notice is emitted at most once
per wait_until_published invocation, however many poll iterations
occur. -/
theorem c9_notice_at_most_once (t : Nat) (pkg : String) (env : Nat → Attempt) :
    (wait_until_published t pkg env).notices ≤ 1 := by
  have h := wupLoop_notices t pkg env _ _ _ _ _ _ _ _ (wait_until_published_eq t pkg env)
  simpa using h

/-- Claim C10: the first publication check runs before the total-timeout
deadline is ever consulted, and the strictly-greater-than deadline
comparison happens only after an Ok false result: with a total timeout
of zero a first check that reports the version present still succeeds,
and a first check that reports absent after consuming exactly the whole
timeout does not trigger the timeout error (strict comparison) — the
loop goes on to a second, successful check. -/
theorem c10_first_check_before_deadline :
    (∀ (pkg : String) (env : Nat → Attempt),
      (env 0).duration = 0 → (env 0).result = .ok true →
      (wait_until_published 0 pkg env).outcome = .ok ())
    ∧ (∀ (t : Nat) (pkg : String) (env : Nat → Attempt),
      (env 0).duration = t → (env 0).result = .ok false →
      (env 1).duration = 0 → (env 1).result = .ok true →
      (wait_until_published t pkg env).outcome = .ok ()
      ∧ (wait_until_published t pkg env).checksMade = 2) := by
  constructor
  · intro pkg env h1 h2
    have hp : is_published 0 pkg (env 0) = .ok true :=
      is_published_completes (by omega) h2
    have hf : pollFuel 0 = 1 + 1 := rfl
    unfold wait_until_published
    rw [hf, wupLoop_step_true hp]
  · intro t pkg env h1 h2 h3 h4
    have hp0 : is_published t pkg (env 0) = .ok false :=
      is_published_completes (by omega) h2
    have hp1 : is_published t pkg (env 1) = .ok true :=
      is_published_completes (by omega) h4
    have hct0 : checkTime t (env 0) = t := by
      rw [checkTime_of_le (by omega), h1]
    have hf : pollFuel t = (t / 2 + 1) + 1 := rfl
    unfold wait_until_published
    rw [hf, wupLoop_step_false hp0 (by rw [hct0]; omega), wupLoop_step_true hp1]
    exact ⟨rfl, rfl⟩

/-- Witness for C10: with total timeout zero and the version present at
the first check, the call succeeds instead of timing out. -/
theorem c10_first_check_before_deadline_witness :
    (wait_until_published 0 "demo-crate" envPresent).outcome = .ok () :=
  c10_first_check_before_deadline.1 "demo-crate" envPresent rfl rfl

end ReleasePlz
